import Mathlib

/-!
Verification development for the EmailEngine webhooks worker
(`src/workers/webhooks.js`).

Two subsystems are embedded here.

The first is the correlated command/response channel implemented by the
module-level `call` function, the `mids` counter, the `callQueue` map and
the `parentPort.on('message')` handler.  `Chan` models the channel state
(`mids` counter, the pending-call table, and the settlement state of the
promise created for each call), `callOp` models one invocation of `call`,
`timerFire` models the expiry of a pending call's timeout timer, and
`respArrive` models the arrival of a `{cmd: 'resp', mid, ...}` frame.

The second is the per-job handler registered with the `notify` bullmq
worker.  `handle` models one run of the job handler over an environment
`Env` that packages every external collaborator consulted by the run
(redis hash reads, settings reads, route metadata, the URL library, the
HMAC function, the HTTP transport outcome).  The run's outward behaviour
is returned as a `HandleOut`: the result (normal return or thrown error),
the ordered list of observable effects (the HTTP POST, error-flag store
writes, metric emissions), and the final value of `job.data` (the handler
mutates it in place).

Machine-level externals (WHATWG URL parsing, `he` encoding, JSON
serialization, HMAC-SHA256 itself) are supplied as opaque function fields
of `Env`; everything the worker source computes around them (truthiness
tests, precedence chains, header layering, base64url encoding of the HMAC
digest, control flow, effect ordering) is embedded directly from the
source.
-/

/-! ## Bytes, JavaScript string truthiness -/

/-- Byte strings are lists of naturals; a valid byte is `< 256`. -/
abbrev Bytes := List Nat

/-- Truthiness of a JavaScript string-or-absent value: `undefined`/`null`
and the empty string are falsy, every other string is truthy. -/
def strTruthy : Option String → Bool
  | none => false
  | some s => s != ""

/-- JavaScript `a || b` over string-or-absent values. -/
def jsOrStr (a b : Option String) : Option String :=
  if strTruthy a then a else b

/-! ## base64url (no padding)

`hmac.digest('base64url')` in Node produces the RFC 4648 base64url
encoding of the digest bytes without padding characters. -/

/-- The base64url alphabet. -/
def b64Chars : List Char :=
  "ABCDEFGHIJKLMNOPQRSTUVWXYZabcdefghijklmnopqrstuvwxyz0123456789-_".data

/-- Character for a sextet value (< 64). -/
def sextetChar (n : Nat) : Char := b64Chars.getD n 'A'

/-- Index of a character in the base64url alphabet (partial inverse of
`sextetChar`). -/
def charSextet (c : Char) : Nat := b64Chars.findIdx (fun x => x == c)

/-- Split a byte string into base64 sextets, 3 bytes at a time; a final
group of 1 or 2 bytes yields 2 or 3 sextets (no padding). -/
def encodeSextets : Bytes → List Nat
  | a :: b :: c :: rest =>
      (a / 4) :: ((a % 4) * 16 + b / 16) :: ((b % 16) * 4 + c / 64) :: (c % 64) ::
        encodeSextets rest
  | [a, b] => [a / 4, (a % 4) * 16 + b / 16, (b % 16) * 4]
  | [a] => [a / 4, (a % 4) * 16]
  | [] => []

/-- Reassemble bytes from base64 sextets, 4 sextets at a time; a final
group of 2 or 3 sextets yields 1 or 2 bytes. -/
def decodeSextets : List Nat → Bytes
  | s0 :: s1 :: s2 :: s3 :: rest =>
      (s0 * 4 + s1 / 16) :: ((s1 % 16) * 16 + s2 / 4) :: ((s2 % 4) * 64 + s3) ::
        decodeSextets rest
  | [s0, s1, s2] => [s0 * 4 + s1 / 16, (s1 % 16) * 16 + s2 / 4]
  | [s0, s1] => [s0 * 4 + s1 / 16]
  | _ => []

/-- base64url encoding without padding, as produced by
`hmac.digest('base64url')`. -/
def b64urlNoPad (l : Bytes) : String :=
  String.mk ((encodeSextets l).map sextetChar)

/-! ## Decimal rendering of numbers

`` `${Date.now()}:${++mids}` `` renders both numbers in decimal.  A
fuel-based (hence structurally recursive and kernel-evaluable) decimal
renderer. -/

/-- The decimal digit character for a value (values ≥ 9 all map to `'9'`;
only arguments < 10 are ever used). -/
def digitChar : Nat → Char
  | 0 => '0' | 1 => '1' | 2 => '2' | 3 => '3' | 4 => '4'
  | 5 => '5' | 6 => '6' | 7 => '7' | 8 => '8' | _ => '9'

/-- Numeric value of a decimal digit character. -/
def digitVal (c : Char) : Nat := c.toNat - 48

/-- Fuel-based most-significant-first decimal digit list. -/
def natDigitsF : Nat → Nat → List Char
  | 0, _ => []
  | fuel + 1, n =>
      if n < 10 then [digitChar n]
      else natDigitsF fuel (n / 10) ++ [digitChar (n % 10)]

/-- Decimal digit list of `n`, most significant first. -/
def natDigits (n : Nat) : List Char := natDigitsF (n + 1) n

/-- Numeric value of a most-significant-first digit list. -/
def digitsVal (l : List Char) : Nat :=
  l.foldl (fun a c => a * 10 + digitVal c) 0

/-- The call id generated by `call`: `` `${Date.now()}:${++mids}` `` — the
decimal timestamp, a colon, and the decimal value of the incremented
module-level counter. -/
def mkMid (now seq : Nat) : String :=
  String.mk (natDigits now ++ ':' :: natDigits seq)

/-! ## The command/response channel (`call` / `parentPort.on('message')`) -/

/-- A rejection value: `Error` objects as materialized by the worker
(`message`, optional `code`, `statusCode`, `ttl` properties). -/
structure ErrVal where
  message : String
  code : Option String := none
  statusCode : Option Nat := none
  ttl : Option Nat := none
deriving DecidableEq

/-- The timeout error built in the `setTimeout` callback of `call`:
message `'Timeout waiting for command response [T6]'`, `statusCode` 504,
`code` `'Timeout'`, and the configured `ttl`. -/
def timeoutErr (ttl : Nat) : ErrVal :=
  { message := "Timeout waiting for command response [T6]"
    code := some "Timeout"
    statusCode := some 504
    ttl := some ttl }

/-- Settlement state of the promise returned by one `call` invocation.
A promise settles at most once; later resolutions are no-ops. -/
inductive PromSt where
  | pending : PromSt
  | resolved (r : String) : PromSt
  | rejected (e : ErrVal) : PromSt
deriving DecidableEq

/-- Channel state: the `mids` counter, the `callQueue` pending table
(mid ↦ the ttl captured by that call's timer closure), and the settlement
state of the promise created for each issued mid. -/
structure Chan where
  mids : Nat
  table : List (String × Nat)
  proms : List (String × PromSt)
deriving DecidableEq

/-- The initial channel state: counter 0, empty `callQueue`. -/
def chanEmpty : Chan := { mids := 0, table := [], proms := [] }

/-- One invocation of `call`: pre-increments `mids`, generates
`mid = ${now}:${mids}`, computes `ttl = max(message.timeout || 0,
EENGINE_TIMEOUT || 0)`, stores the entry in `callQueue`, and creates a
pending promise (the `postMessage` send is modelled as succeeding). -/
def callOp (now msgTimeout engineTimeout : Nat) (c : Chan) : Chan :=
  let seq := c.mids + 1
  let mid := mkMid now seq
  let ttl := max msgTimeout engineTimeout
  { mids := seq
    table := (mid, ttl) :: c.table
    proms := (mid, PromSt.pending) :: c.proms }

/-- The state a settlement outcome drives a pending promise into. -/
def settledSt : Except ErrVal String → PromSt
  | .ok r => PromSt.resolved r
  | .error e => PromSt.rejected e

/-- Settle the promise of `mid` (first settlement wins: an already
resolved or rejected promise is unchanged). -/
def settleProm (proms : List (String × PromSt)) (mid : String)
    (out : Except ErrVal String) : List (String × PromSt) :=
  proms.map fun p =>
    if p.1 == mid && p.2 == PromSt.pending then (p.1, settledSt out) else p

/-- Expiry of the timeout timer of the call `mid`.  Possible only while
the timer has not been cleared, i.e. while the entry is still in
`callQueue` (the response branch clears the timer exactly when it deletes
the entry).  The `setTimeout` callback in the source rejects the promise
with the timeout error carrying the closure's ttl — and does nothing
else: in particular it does not touch `callQueue`. -/
def timerFire (mid : String) (c : Chan) : Chan :=
  match c.table.find? (fun p => p.1 == mid) with
  | some entry =>
      { c with proms := settleProm c.proms mid (.error (timeoutErr entry.2)) }
  | none => c

/-- Arrival of a `{cmd: 'resp', mid, response|error}` frame: if `mid` is
in `callQueue`, its timer is cleared, the entry removed, and the promise
resolved or rejected; an unknown `mid` is ignored. -/
def respArrive (mid : String) (out : Except ErrVal String) (c : Chan) : Chan :=
  match c.table.find? (fun p => p.1 == mid) with
  | some _ =>
      { c with
        table := c.table.filter (fun p => !(p.1 == mid))
        proms := settleProm c.proms mid out }
  | none => c

/-- Settlement state of the promise of `mid`. -/
def promOf (c : Chan) (mid : String) : Option PromSt :=
  (c.proms.find? (fun p => p.1 == mid)).map (fun p => p.2)

/-- Whether `callQueue` holds an entry for `mid`. -/
def tableHas (c : Chan) (mid : String) : Bool :=
  (c.table.find? (fun p => p.1 == mid)).isSome

/-- Run a sequence of `call` invocations, each given as
`(now, message.timeout, EENGINE_TIMEOUT)`. -/
def runCalls (ts : List (Nat × Nat × Nat)) (c : Chan) : Chan :=
  ts.foldl (fun st t => callOp t.1 t.2.1 t.2.2 st) c

/-! ## The notify job handler: data model -/

/-- Sub-payload `job.data.data` (fields consulted by the handler). -/
structure SubData where
  messageSpecialUse : Option String := none
  labels : Option (List String) := none
deriving DecidableEq

/-- The custom-route mapping carried as `job.data._route.mapping`: opaque
JSON of which the handler reads and clears only `eventId`. -/
structure Mapping where
  eventId : Option String := none
  rest : String := ""
deriving DecidableEq

/-- The route reference `job.data._route`. -/
structure RouteRef where
  id : Option String := none
  mapping : Option Mapping := none
deriving DecidableEq

/-- The fields of `job.data` that the handler consults or mutates, plus
an opaque remainder (`other`) standing for all further payload fields.
`routeRef` models `job.data._route`. -/
structure JobData where
  account : Option String := none
  path : Option String := none
  specialUse : Option String := none
  event : Option String := none
  eventId : Option String := none
  messageId : Option String := none
  sub : Option SubData := none
  routeRef : Option RouteRef := none
  other : List (String × String) := []
deriving DecidableEq

/-- A queue job as handed to the handler. -/
structure Job where
  id : String
  name : String
  data : JobData
  timestamp : Nat
  attemptsMade : Nat
deriving DecidableEq

/-- Route metadata as returned by `Webhooks.getMeta`. -/
structure CustomRoute where
  id : String := ""
  enabled : Bool := false
  targetUrl : Option String := none
  customHeaders : Option (List (String × String)) := none
deriving DecidableEq

/-- Result of `new URL(webhooks)` as consumed by the handler: the
(still percent-encoded) userinfo components and the URL's serialization
after the userinfo has been blanked. -/
structure UrlParts where
  username : String := ""
  password : String := ""
  stripped : String := ""
deriving DecidableEq

/-- Everything external that one handler run consults, plus the opaque
machine-level functions it applies (URL parsing, credential encoding,
JSON serialization, HMAC-SHA256). -/
structure Env where
  accountExists : Bool
  webhooksEnabled : Bool
  routeMeta : String → Option CustomRoute
  accountWebhooks : Option String
  settingsWebhooks : Option String
  acctCustomHeaders : Option (List (String × String))
  webhookEvents : Option (List String)
  inboxNewOnly : Bool
  globalCustomHeaders : Option (List (String × String))
  serviceSecret : String
  hmacFn : String → Bytes → Bytes
  serialize : JobData ⊕ Mapping → Bytes
  urlParse : String → UrlParts
  basicAuth : String → String → String
  statusText : String
  httpResult : Except String Nat
  now : Nat
  fetchDuration : Nat
  failTime : Nat

/-- Modelled from the spec: the event-name constant `MESSAGE_NEW_NOTIFY`
lives in `lib/consts` which is not among the sources; the spec's
end-to-end scenarios name the new-message event `"messageNew"`. -/
def MESSAGE_NEW_NOTIFY : String := "messageNew"

/-- Modelled from the spec: the event-name constant
`ACCOUNT_DELETED_NOTIFY` lives in `lib/consts` which is not among the
sources; the spec only calls it "the account-deletion event", and the
handler uses it solely as a distinguished job name. -/
def ACCOUNT_DELETED_NOTIFY : String := "accountDeleted"

/-- The `User-Agent` header value
`${packageData.name}/${packageData.version} (+${packageData.homepage})`;
`package.json` is not among the sources, so the concrete string is a
stand-in (no claim depends on it). -/
def userAgentString : String := "emailengine/0.0.0 (+https://emailengine.app)"

/-- Error-flag record `{event, message, time, url}`. -/
structure ErrorFlag where
  event : String
  message : String
  time : Nat
  url : String
deriving DecidableEq

/-- Error-flag scope: per custom route, per account, or global. -/
inductive Scope where
  | route (id : String) : Scope
  | account (acct : Option String) : Scope
  | glob : Scope
deriving DecidableEq

/-- A stored error-flag value: the empty object `{}` or a failure
record. -/
inductive FlagVal where
  | empty : FlagVal
  | flag (f : ErrorFlag) : FlagVal
deriving DecidableEq

/-- One observable effect of a handler run, in program order. -/
inductive Effect where
  | posted (url : String) (headers : List (String × String)) (body : Bytes) : Effect
  | hsetFlag (sc : Scope) (v : FlagVal) : Effect
  | settingsClearFlag : Effect
  | settingsSetFlag (f : ErrorFlag) : Effect
  | metricInc (event status : String) : Effect
  | metricObserve (d : Nat) : Effect
deriving DecidableEq

/-- Result of a handler run: normal return, or a thrown error
(message, and the HTTP status for non-2xx responses). -/
inductive RunResult where
  | ok : RunResult
  | err (message : String) (status : Option Nat) : RunResult
deriving DecidableEq

/-- The outward behaviour of one handler run. -/
structure HandleOut where
  result : RunResult
  effects : List Effect
  finalData : JobData
deriving DecidableEq

/-! ## The notify job handler: pipeline -/

/-- Header sets are ordered key→value pairs with JavaScript object
assignment semantics. -/
abbrev Headers := List (String × String)

/-- `headers[k] = v`: overwrite in place if the key exists, else append. -/
def setHeader (hs : Headers) (k v : String) : Headers :=
  if hs.any (fun p => p.1 == k) then
    hs.map (fun p => if p.1 == k then (k, v) else p)
  else hs ++ [(k, v)]

/-- Apply a layer of custom headers left to right
(`for (let header of layer) headers[header.key] = header.value`). -/
def applyHeaders (hs : Headers) (layer : List (String × String)) : Headers :=
  layer.foldl (fun acc p => setHeader acc p.1 p.2) hs

/-- Read a header value. -/
def hdrLookup (hs : Headers) (k : String) : Option String :=
  (hs.find? (fun p => p.1 == k)).map (fun p => p.2)

/-- The value the last occurrence of `k` in a layer would write. -/
def lastVal (layer : List (String × String)) (k : String) : Option String :=
  (layer.reverse.find? (fun p => p.1 == k)).map (fun p => p.2)

/-- Outcome of the custom-route step. -/
inductive RouteStep where
  | drop (d : JobData) : RouteStep
  | go (cr : Option CustomRoute) (cm : Option Mapping) (d : JobData) : RouteStep
deriving DecidableEq

/-- The custom-route step: when `job.data._route && job.data._route.id`,
fetch the route metadata, remember the mapping, delete `_route` from
`job.data`, and drop unless the route exists, is enabled and has a target
URL. -/
def routePhase (env : Env) (d : JobData) : RouteStep :=
  match d.routeRef with
  | some r =>
      if strTruthy r.id then
        let d1 := { d with routeRef := none }
        match env.routeMeta (r.id.getD "") with
        | some cr =>
            if cr.enabled && strTruthy cr.targetUrl then .go (some cr) r.mapping d1
            else .drop d1
        | none => .drop d1
      else .go none none d
  | none => .go none none d

/-- `(customRoute && customRoute.targetUrl)` as the first operand of the
URL precedence chain. -/
def routeUrl : Option CustomRoute → Option String
  | some cr => cr.targetUrl
  | none => none

/-- `webhooks = (customRoute && customRoute.targetUrl) || accountWebhooks
|| (await settings.get('webhooks'))`. -/
def resolveUrl (env : Env) (cr : Option CustomRoute) : Option String :=
  jsOrStr (routeUrl cr) (jsOrStr env.accountWebhooks env.settingsWebhooks)

/-- The allow-list test: the global `webhookEvents` list contains `'*'`
or the job's name. -/
def allowListPass (env : Env) (jobName : String) : Bool :=
  let evs := env.webhookEvents.getD []
  evs.contains "*" || evs.contains jobName

/-- The `isInbox` test of the `MESSAGE_NEW_NOTIFY` branch. -/
def isInboxB (d : JobData) : Bool :=
  (strTruthy d.account && (d.path == some "INBOX"))
  || (d.specialUse == some "\\Inbox")
  || (match d.sub with
      | some sd =>
          (sd.messageSpecialUse == some "\\Inbox")
          || (match sd.labels with
              | some ls => ls.contains "\\Inbox"
              | none => false)
      | none => false)

/-- Whether the new-message inbox-only check drops the job: the switch is
on `job.data.event`, the message is not in the inbox, and the
`inboxNewOnly` setting is on. -/
def inboxFilterDrop (env : Env) (d : JobData) : Bool :=
  (d.event == some MESSAGE_NEW_NOTIFY) && !(isInboxB d) && env.inboxNewOnly

/-- The event filters, applied only when no custom route is attached. -/
def passesFilters (env : Env) (jobName : String) (cr : Option CustomRoute)
    (d : JobData) : Bool :=
  match cr with
  | some _ => true
  | none => allowListPass env jobName && !(inboxFilterDrop env d)

/-- `X-EE-Wh-Queued-Time`:
`Math.round(Math.max(0, (Date.now() - job.timestamp) / 1000)) + 's'`. -/
def queuedTimeStr (now ts : Nat) : String :=
  toString (if ts ≤ now then (now - ts + 500) / 1000 else 0) ++ "s"

/-- The base generated headers. -/
def baseHeaders (env : Env) (job : Job) : Headers :=
  [("Content-Type", "application/json"),
   ("User-Agent", userAgentString),
   ("X-EE-Wh-Id", job.id),
   ("X-EE-Wh-Attempts-Made", toString job.attemptsMade),
   ("X-EE-Wh-Queued-Time", queuedTimeStr env.now job.timestamp)]

/-- Extract userinfo from the destination URL and, when present, add the
Basic `Authorization` header (credential decoding/encoding is the opaque
`basicAuth` collaborator). -/
def authHeaders (env : Env) (url : String) (hs : Headers) : Headers :=
  let p := env.urlParse url
  if p.username != "" || p.password != "" then
    setHeader hs "Authorization" (env.basicAuth p.username p.password)
  else hs

/-- The middle header layer: with a custom route, the
`X-EE-Wh-Custom-Route` marker plus the route's custom headers; without
one, the global `webhooksCustomHeaders` setting. -/
def midLayer (env : Env) (cr : Option CustomRoute) (hs : Headers) : Headers :=
  match cr with
  | some c => applyHeaders (setHeader hs "X-EE-Wh-Custom-Route" c.id) (c.customHeaders.getD [])
  | none => applyHeaders hs (env.globalCustomHeaders.getD [])

/-- The account custom-headers layer, applied whenever the account's
`webhooksCustomHeaders` hash field parsed. -/
def acctLayer (env : Env) (hs : Headers) : Headers :=
  match env.acctCustomHeaders with
  | some l => applyHeaders hs l
  | none => hs

/-- The `eventId` hoisted out of the payload (`webhookPayload.eventId`,
when truthy). -/
def eventIdOf (cm : Option Mapping) (d : JobData) : Option String :=
  match cm with
  | some m => if strTruthy m.eventId then m.eventId else none
  | none => if strTruthy d.eventId then d.eventId else none

/-- Add the `X-EE-Wh-Event-Id` header when the payload carried a truthy
`eventId`. -/
def evHeaders (cm : Option Mapping) (d : JobData) (hs : Headers) : Headers :=
  match eventIdOf cm d with
  | some e => setHeader hs "X-EE-Wh-Event-Id" e
  | none => hs

/-- The serialized payload source: the custom mapping if one was supplied,
else `job.data`; a truthy `eventId` is cleared before serialization. -/
def payloadOf (cm : Option Mapping) (d : JobData) : JobData ⊕ Mapping :=
  match cm with
  | some m => .inr (if strTruthy m.eventId then { m with eventId := none } else m)
  | none => .inl (if strTruthy d.eventId then { d with eventId := none } else d)

/-- The value of `job.data` after the payload step:
`webhookPayload.eventId = undefined` aliases `job.data` exactly when no
custom mapping was supplied. -/
def finalDataOf (cm : Option Mapping) (d : JobData) : JobData :=
  match cm with
  | some _ => d
  | none => if strTruthy d.eventId then { d with eventId := none } else d

/-- The transmitted body bytes. -/
def bodyOf (env : Env) (cm : Option Mapping) (d : JobData) : Bytes :=
  env.serialize (payloadOf cm d)

/-- The signature header value: base64url (no padding) of HMAC-SHA256
over the body bytes keyed by the service secret. -/
def sigValue (env : Env) (body : Bytes) : String :=
  b64urlNoPad (env.hmacFn env.serviceSecret body)

/-- All headers before the signature header. -/
def preSigHeaders (env : Env) (job : Job) (cr : Option CustomRoute)
    (cm : Option Mapping) (d : JobData) (url : String) : Headers :=
  evHeaders cm d (acctLayer env (midLayer env cr (authHeaders env url (baseHeaders env job))))

/-- The transmitted headers. -/
def deliverHeaders (env : Env) (job : Job) (cr : Option CustomRoute)
    (cm : Option Mapping) (d : JobData) (url : String) : Headers :=
  setHeader (preSigHeaders env job cr cm d url) "X-EE-Wh-Signature"
    (sigValue env (bodyOf env cm d))

/-- The error-flag scope of the run: the custom route if one was used,
else the account when it has its own webhook URL, else global. -/
def scopeOf (env : Env) (cr : Option CustomRoute) (acct : Option String) : Scope :=
  match cr with
  | some c => .route c.id
  | none => if strTruthy env.accountWebhooks then .account acct else .glob

/-- The URL recorded in a failure flag: the route's target for route
scope, else the resolved `webhooks` URL. -/
def flagUrlOf (cr : Option CustomRoute) (url : String) : String :=
  match cr with
  | some c => c.targetUrl.getD ""
  | none => url

/-- The store write on delivery success: `JSON.stringify({})` into the
route or account hash field, or `settings.clear('webhookErrorFlag')` for
the global scope. -/
def successFlagEffect : Scope → Effect
  | .glob => .settingsClearFlag
  | sc => .hsetFlag sc .empty

/-- The store write on delivery failure: the `{event, message, time,
url}` record into the scope's field. -/
def failFlagEffect (sc : Scope) (f : ErrorFlag) : Effect :=
  match sc with
  | .glob => .settingsSetFlag f
  | sc1 => .hsetFlag sc1 (.flag f)

/-- `res.ok`: status in the 2xx range. -/
def httpOkStatus (st : Nat) : Bool := 200 ≤ st && st < 300

/-- Whether the environment's HTTP outcome is a delivery failure
(transport error or non-2xx response). -/
def deliveryFails (env : Env) : Bool :=
  match env.httpResult with
  | .error _ => true
  | .ok st => !(httpOkStatus st)

/-- The `finally` block: `if (duration) metrics(..., 'observe',
duration)` — the metric is emitted only when the measured duration is a
truthy number. -/
def obsEffects (env : Env) : List Effect :=
  if env.fetchDuration ≠ 0 then [.metricObserve env.fetchDuration] else []

/-- The delivery step: POST, then the success or failure bookkeeping
(error-flag write, counter metric), then the duration observation; a
failure is rethrown. -/
def deliver (env : Env) (job : Job) (cr : Option CustomRoute)
    (cm : Option Mapping) (d : JobData) (url : String) : HandleOut :=
  let hs := deliverHeaders env job cr cm d url
  let b := bodyOf env cm d
  let dF := finalDataOf cm d
  let sc := scopeOf env cr job.data.account
  let postUrl := (env.urlParse url).stripped
  match env.httpResult with
  | .error m =>
      { result := .err m none
        effects := [.posted postUrl hs b,
                    failFlagEffect sc { event := job.name, message := m,
                                        time := env.failTime, url := flagUrlOf cr url },
                    .metricInc job.name "fail"] ++ obsEffects env
        finalData := dF }
  | .ok st =>
      if httpOkStatus st then
        { result := .ok
          effects := [.posted postUrl hs b,
                      successFlagEffect sc,
                      .metricInc job.name "success"] ++ obsEffects env
          finalData := dF }
      else
        let msg := "Invalid response: " ++ toString st ++ " " ++ env.statusText
        { result := .err msg (some st)
          effects := [.posted postUrl hs b,
                      failFlagEffect sc { event := job.name, message := msg,
                                          time := env.failTime, url := flagUrlOf cr url },
                      .metricInc job.name "fail"] ++ obsEffects env
          finalData := dF }

/-- One run of the notify job handler. -/
def handle (env : Env) (job : Job) : HandleOut :=
  if !env.accountExists && !(job.name == ACCOUNT_DELETED_NOTIFY) then
    { result := .ok, effects := [], finalData := job.data }
  else if !env.webhooksEnabled then
    { result := .ok, effects := [], finalData := job.data }
  else
    match routePhase env job.data with
    | .drop d => { result := .ok, effects := [], finalData := d }
    | .go cr cm d =>
        if !(strTruthy (resolveUrl env cr)) then
          { result := .ok, effects := [], finalData := d }
        else if !(passesFilters env job.name cr d) then
          { result := .ok, effects := [], finalData := d }
        else deliver env job cr cm d ((resolveUrl env cr).getD "")

/-! ## Observations over a run -/

/-- Whether an effect is the HTTP POST. -/
def isPostedE : Effect → Bool
  | .posted _ _ _ => true
  | _ => false

/-- Whether an HTTP request attempt was made during the run. -/
def attempted (o : HandleOut) : Bool := o.effects.any isPostedE

/-- The POST issued by the run, if any. -/
def postedOf (o : HandleOut) : Option (String × Headers × Bytes) :=
  o.effects.findSome? fun e =>
    match e with
    | .posted u h b => some (u, h, b)
    | _ => none

/-- Whether an effect is the delivery-duration observation metric. -/
def isObserveE : Effect → Bool
  | .metricObserve _ => true
  | _ => false

/-- Whether an effect touches an error-flag store. -/
def isFlagE : Effect → Bool
  | .hsetFlag _ _ => true
  | .settingsClearFlag => true
  | .settingsSetFlag _ => true
  | _ => false

/-- The error-flag store effect of the run, if any. -/
def flagEffectOf (o : HandleOut) : Option Effect :=
  o.effects.find? isFlagE

/-- Whether the run threw. -/
def isErrResult (o : HandleOut) : Bool :=
  match o.result with
  | .err _ _ => true
  | .ok => false

/-! ## Error-flag store semantics -/

/-- Modelled from the spec: the semantics of
`settings.clear('webhookErrorFlag')` — `lib/settings` is not among the
sources; per the spec the flag is "cleared (set to empty object) on the
next success at the same scope", so clearing stores the empty value. -/
def settingsClearSem : FlagVal := .empty

/-- The scope and stored value an effect writes to the error-flag store,
if any. -/
def scopeTouched : Effect → Option (Scope × FlagVal)
  | .hsetFlag sc v => some (sc, v)
  | .settingsClearFlag => some (.glob, settingsClearSem)
  | .settingsSetFlag f => some (.glob, .flag f)
  | _ => none

/-- Apply one effect to the error-flag store (last-writer-wins per scope
key). -/
def applyFlagEffect (st : Scope → Option FlagVal) (e : Effect) :
    Scope → Option FlagVal :=
  match scopeTouched e with
  | some (sc, v) => fun x => if x = sc then some v else st x
  | none => st

/-- Replay a run's effects over the error-flag store. -/
def replayFlags (st : Scope → Option FlagVal) (es : List Effect) :
    Scope → Option FlagVal :=
  es.foldl applyFlagEffect st

/-! ## Channel invariant used for call-id freshness -/

/-- Every pending-table key was generated from a counter value between 1
and the current `mids`, and the keys are pairwise distinct. -/
def chanInv (c : Chan) : Prop :=
  (c.table.map Prod.fst).Nodup ∧
    ∀ k ∈ c.table.map Prod.fst, ∃ t s, 0 < s ∧ s ≤ c.mids ∧ k = mkMid t s

/-- The message of the error a failing delivery throws: the transport
error's message, or `Invalid response: <status> <statusText>`. -/
def errMsgOf (env : Env) : String :=
  match env.httpResult with
  | .error m => m
  | .ok st => "Invalid response: " ++ toString st ++ " " ++ env.statusText

/-- The `status` property of the thrown delivery error (set only for
non-2xx responses). -/
def errStatusOf (env : Env) : Option Nat :=
  match env.httpResult with
  | .error _ => none
  | .ok st => some st

/-- The single error-flag store effect of a delivery: a failure record on
failure, the clearing write on success. -/
def runFlagEffect (env : Env) (job : Job) (cr : Option CustomRoute)
    (url : String) : Effect :=
  if deliveryFails env then
    failFlagEffect (scopeOf env cr job.data.account)
      { event := job.name, message := errMsgOf env,
        time := env.failTime, url := flagUrlOf cr url }
  else successFlagEffect (scopeOf env cr job.data.account)

/-- Agreement of two `job.data` values on every field other than the
route reference and `eventId`. -/
def sameFrame (a b : JobData) : Prop :=
  a.account = b.account ∧ a.path = b.path ∧ a.specialUse = b.specialUse ∧
  a.event = b.event ∧ a.messageId = b.messageId ∧ a.sub = b.sub ∧
  a.other = b.other

/-! ## Concrete fixtures -/

/-- A baseline environment: account exists, webhooks enabled, an
account-level URL, allow-list `['*']`, no custom headers anywhere,
identity HMAC, constant serialization, 2xx response. -/
def baseEnv : Env :=
  { accountExists := true
    webhooksEnabled := true
    routeMeta := fun _ => none
    accountWebhooks := some "https://example.com/hook"
    settingsWebhooks := none
    acctCustomHeaders := none
    webhookEvents := some ["*"]
    inboxNewOnly := false
    globalCustomHeaders := none
    serviceSecret := "secret"
    hmacFn := fun _ b => b
    serialize := fun _ => [104, 105]
    urlParse := fun u => { username := "", password := "", stripped := u }
    basicAuth := fun u p => u ++ ":" ++ p
    statusText := "OK"
    httpResult := .ok 200
    now := 1000
    fetchDuration := 5
    failTime := 7 }

/-- A baseline new-message job in the INBOX. -/
def baseJob : Job :=
  { id := "1"
    name := "messageNew"
    data := { account := some "acc1", path := some "INBOX",
              event := some "messageNew", messageId := some "m1" }
    timestamp := 1000
    attemptsMade := 0 }

/-- The C2 counterexample job: job-level event name `messageNew`, data
`{account, path ≠ 'INBOX', messageId}` — and no `event` field inside
`job.data`. -/
def jobC2 : Job :=
  { id := "1"
    name := "messageNew"
    data := { account := some "acc1", path := some "Junk", messageId := some "m1" }
    timestamp := 1000
    attemptsMade := 0 }

/-- The C2 counterexample environment: `inboxNewOnly` enabled. -/
def envC2 : Env := { baseEnv with inboxNewOnly := true }

/-- The C2 scenario job with the payload's `event` field present. -/
def jobC2ev : Job :=
  { jobC2 with data := { jobC2.data with event := some "messageNew" } }

/-- The enabled custom route used by the header-layering and
route-bypass fixtures, with custom headers `{B: 2}`. -/
def routeB : CustomRoute :=
  { id := "r1", enabled := true, targetUrl := some "https://route.example/hook",
    customHeaders := some [("B", "2")] }

/-- An environment with global headers `{A: 1}`, account headers
`{C: 3}`, and route `r1` (headers `{B: 2}`) resolvable. -/
def envABC : Env :=
  { baseEnv with
    routeMeta := fun i => if i == "r1" then some routeB else none
    acctCustomHeaders := some [("C", "3")]
    globalCustomHeaders := some [("A", "1")] }

/-- A routed job (route `r1` attached). -/
def jobRouted : Job :=
  { baseJob with
    data := { account := some "acc1", path := some "INBOX",
              event := some "messageNew", messageId := some "m1",
              routeRef := some { id := some "r1" } } }

/-- A non-routed job with `eventId` present. -/
def jobEventId : Job :=
  { baseJob with
    data := { account := some "acc1", path := some "INBOX",
              event := some "messageNew", messageId := some "m1",
              eventId := some "evt-1" } }

/-- A failing-transport environment. -/
def envFail : Env := { baseEnv with httpResult := .error "connect ECONNREFUSED" }

/-- A second failing environment (non-2xx response, later timestamp). -/
def envFail2 : Env := { baseEnv with httpResult := .ok 500, statusText := "Server Error", failTime := 9 }

/-- The environment of a request attempt whose measured duration is zero
milliseconds. -/
def envDur0 : Env := { baseEnv with fetchDuration := 0 }

/-! # Lemmas and theorems -/

/-! ## base64url -/

theorem charSextet_sextetChar : ∀ n, n < 64 → charSextet (sextetChar n) = n := by
  decide

theorem encodeSextets_lt : ∀ l : Bytes, (∀ x ∈ l, x < 256) →
    ∀ s ∈ encodeSextets l, s < 64 := by
  intro l
  induction l using encodeSextets.induct with
  | case1 a b c rest ih =>
      intro hv s hs
      have ha : a < 256 := hv a (by simp)
      have hb : b < 256 := hv b (by simp)
      have hc : c < 256 := hv c (by simp)
      have hrest : ∀ x ∈ rest, x < 256 := fun x hx => hv x (by simp [hx])
      simp only [encodeSextets, List.mem_cons] at hs
      rcases hs with h | h | h | h | h
      · omega
      · omega
      · omega
      · omega
      · exact ih hrest s h
  | case2 a b =>
      intro hv s hs
      have ha : a < 256 := hv a (by simp)
      have hb : b < 256 := hv b (by simp)
      simp only [encodeSextets, List.mem_cons] at hs
      rcases hs with h | h | h | h <;> first | omega | simp_all
  | case3 a =>
      intro hv s hs
      have ha : a < 256 := hv a (by simp)
      simp only [encodeSextets, List.mem_cons] at hs
      rcases hs with h | h | h <;> first | omega | simp_all
  | case4 => intro _ s hs; simp [encodeSextets] at hs

theorem decode_encode : ∀ l : Bytes, (∀ x ∈ l, x < 256) →
    decodeSextets (encodeSextets l) = l := by
  intro l
  induction l using encodeSextets.induct with
  | case1 a b c rest ih =>
      intro hv
      have ha : a < 256 := hv a (by simp)
      have hb : b < 256 := hv b (by simp)
      have hc : c < 256 := hv c (by simp)
      have hrest : ∀ x ∈ rest, x < 256 := fun x hx => hv x (by simp [hx])
      simp only [encodeSextets, decodeSextets, ih hrest, List.cons.injEq]
      refine ⟨by omega, by omega, by omega, trivial⟩
  | case2 a b =>
      intro hv
      have ha : a < 256 := hv a (by simp)
      have hb : b < 256 := hv b (by simp)
      simp only [encodeSextets, decodeSextets, List.cons.injEq]
      refine ⟨by omega, by omega, trivial⟩
  | case3 a =>
      intro hv
      have ha : a < 256 := hv a (by simp)
      simp only [encodeSextets, decodeSextets, List.cons.injEq]
      refine ⟨by omega, trivial⟩
  | case4 => intro _; rfl

theorem map_sextet_roundtrip : ∀ s : List Nat, (∀ x ∈ s, x < 64) →
    (s.map sextetChar).map charSextet = s := by
  intro s hs
  induction s with
  | nil => rfl
  | cons x s ih =>
      simp only [List.map_cons, List.cons.injEq]
      exact ⟨charSextet_sextetChar x (hs x (by simp)),
             ih fun y hy => hs y (by simp [hy])⟩

theorem b64urlNoPad_inj : ∀ h1 h2 : Bytes, (∀ x ∈ h1, x < 256) →
    (∀ x ∈ h2, x < 256) → b64urlNoPad h1 = b64urlNoPad h2 → h1 = h2 := by
  intro h1 h2 v1 v2 he
  have hdata : (encodeSextets h1).map sextetChar = (encodeSextets h2).map sextetChar :=
    congrArg String.data he
  have hsx : encodeSextets h1 = encodeSextets h2 := by
    have hmm := congrArg (List.map charSextet) hdata
    rwa [map_sextet_roundtrip _ (encodeSextets_lt h1 v1),
         map_sextet_roundtrip _ (encodeSextets_lt h2 v2)] at hmm
  have hdec := congrArg decodeSextets hsx
  rwa [decode_encode h1 v1, decode_encode h2 v2] at hdec

/-! ## Decimal digits and call-id injectivity -/

theorem digitChar_ne_colon (d : Nat) : digitChar d ≠ ':' := by
  rcases d with _|_|_|_|_|_|_|_|_|d <;> simp [digitChar]

theorem digitVal_digitChar : ∀ d, d < 10 → digitVal (digitChar d) = d := by
  decide

theorem colon_not_mem_natDigitsF : ∀ f n, ':' ∉ natDigitsF f n := by
  intro f
  induction f with
  | zero => intro n; simp [natDigitsF]
  | succ f ih =>
      intro n
      simp only [natDigitsF]
      split
      · intro hm
        rcases List.mem_singleton.mp hm with h
        exact digitChar_ne_colon n h.symm
      · intro hm
        rcases List.mem_append.mp hm with h | h
        · exact ih (n / 10) h
        · exact digitChar_ne_colon (n % 10) (List.mem_singleton.mp h).symm

theorem digitsVal_append (xs : List Char) (c : Char) :
    digitsVal (xs ++ [c]) = digitsVal xs * 10 + digitVal c := by
  simp [digitsVal, List.foldl_append]

theorem digitsVal_natDigitsF : ∀ f n, n < f → digitsVal (natDigitsF f n) = n := by
  intro f
  induction f with
  | zero => intro n hn; omega
  | succ f ih =>
      intro n hn
      simp only [natDigitsF]
      split
      · rename_i h10
        simp [digitsVal, digitVal_digitChar n h10]
      · rename_i h10
        rw [digitsVal_append, ih (n / 10) (by omega), digitVal_digitChar (n % 10) (by omega)]
        omega

theorem natDigits_inj : ∀ m n, natDigits m = natDigits n → m = n := by
  intro m n h
  have hm := digitsVal_natDigitsF (m + 1) m (by omega)
  have hn := digitsVal_natDigitsF (n + 1) n (by omega)
  rw [natDigits, natDigits] at h
  rw [← hm, ← hn, h]

theorem colon_split_unique : ∀ (l1 l2 r1 r2 : List Char), ':' ∉ l1 → ':' ∉ l2 →
    l1 ++ ':' :: r1 = l2 ++ ':' :: r2 → l1 = l2 ∧ r1 = r2 := by
  intro l1
  induction l1 with
  | nil =>
      intro l2 r1 r2 h1 h2 he
      cases l2 with
      | nil =>
          refine ⟨rfl, ?_⟩
          injection he
      | cons c l2 =>
          exfalso
          injection he with hc _
          exact h2 (by rw [hc]; exact List.mem_cons_self c l2)
  | cons c l1 ih =>
      intro l2 r1 r2 h1 h2 he
      cases l2 with
      | nil =>
          exfalso
          injection he with hc _
          exact h1 (by rw [← hc]; exact List.mem_cons_self c l1)
      | cons c2 l2 =>
          injection he with hc ht
          have h1a : ':' ∉ l1 := fun hm => h1 (List.mem_cons_of_mem _ hm)
          have h2a : ':' ∉ l2 := fun hm => h2 (List.mem_cons_of_mem _ hm)
          obtain ⟨e1, e2⟩ := ih l2 r1 r2 h1a h2a ht
          exact ⟨by rw [hc, e1], e2⟩

theorem mkMid_inj : ∀ t1 s1 t2 s2, mkMid t1 s1 = mkMid t2 s2 → t1 = t2 ∧ s1 = s2 := by
  intro t1 s1 t2 s2 h
  have hd : natDigits t1 ++ ':' :: natDigits s1 = natDigits t2 ++ ':' :: natDigits s2 :=
    congrArg String.data h
  obtain ⟨e1, e2⟩ :=
    colon_split_unique _ _ _ _ (colon_not_mem_natDigitsF _ _) (colon_not_mem_natDigitsF _ _) hd
  exact ⟨natDigits_inj _ _ e1, natDigits_inj _ _ e2⟩

/-! ## Channel lemmas -/

theorem find_settleProm (proms : List (String × PromSt)) (mid : String)
    (out : Except ErrVal String) :
    (settleProm proms mid out).find? (fun p => p.1 == mid) =
      (proms.find? (fun p => p.1 == mid)).map
        (fun p => if p.2 == PromSt.pending then (p.1, settledSt out) else p) := by
  induction proms with
  | nil => rfl
  | cons q proms ih =>
      simp only [settleProm, List.map_cons, List.find?_cons] at ih ⊢
      cases hq : q.1 == mid with
      | true =>
          cases hp : q.2 == PromSt.pending with
          | true =>
              have hp2 : q.2 = PromSt.pending := by simpa using hp
              simp [hq, hp, hp2]
          | false =>
              have hp2 : ¬(q.2 = PromSt.pending) := by simpa using hp
              simp [hq, hp, hp2]
      | false => simpa [hq] using ih

theorem find_filter_not_key (l : List (String × Nat)) (mid : String) :
    (l.filter (fun p => !(p.1 == mid))).find? (fun p => p.1 == mid) = none := by
  induction l with
  | nil => rfl
  | cons q l ih =>
      cases hq : q.1 == mid with
      | true => simpa [List.filter_cons, hq] using ih
      | false => simpa [List.filter_cons, hq, List.find?_cons] using ih

/-- C1 (amended), general form: when the timer of a pending call `mid`
expires, the caller's promise is rejected with the `Timeout` error
carrying the configured ttl, but the entry is NOT removed from the
pending table; a response frame arriving for that id afterwards still
finds the entry, removes it then, and leaves the promise settled with the
timeout rejection (the late resolution is a no-op). -/
theorem call_timeout_behavior : ∀ (c : Chan) (mid : String) (ttl : Nat)
    (out : Except ErrVal String),
    c.table.find? (fun p => p.1 == mid) = some (mid, ttl) →
    promOf c mid = some PromSt.pending →
    promOf (timerFire mid c) mid = some (PromSt.rejected (timeoutErr ttl)) ∧
    tableHas (timerFire mid c) mid = true ∧
    tableHas (respArrive mid out (timerFire mid c)) mid = false ∧
    promOf (respArrive mid out (timerFire mid c)) mid
      = some (PromSt.rejected (timeoutErr ttl)) := by
  intro c mid ttl out htab hprom
  obtain ⟨p, hp, hp2⟩ :
      ∃ p, c.proms.find? (fun p => p.1 == mid) = some p ∧ p.2 = PromSt.pending := by
    unfold promOf at hprom
    cases hf : c.proms.find? (fun p => p.1 == mid) with
    | none => rw [hf] at hprom; exact absurd hprom (by simp)
    | some p =>
        rw [hf] at hprom
        exact ⟨p, rfl, by simpa using hprom⟩
  have ht1 : timerFire mid c
      = { c with proms := settleProm c.proms mid (.error (timeoutErr ttl)) } := by
    unfold timerFire
    rw [htab]
  have hprom1 : promOf (timerFire mid c) mid
      = some (PromSt.rejected (timeoutErr ttl)) := by
    rw [ht1]
    unfold promOf
    simp only [find_settleProm, hp]
    simp [hp2, settledSt]
  have htab1 : (timerFire mid c).table = c.table := by rw [ht1]
  have hresp : respArrive mid out (timerFire mid c)
      = { timerFire mid c with
          table := (timerFire mid c).table.filter (fun p => !(p.1 == mid))
          proms := settleProm (timerFire mid c).proms mid out } := by
    unfold respArrive
    rw [htab1, htab]
  refine ⟨hprom1, ?_, ?_, ?_⟩
  · unfold tableHas
    rw [htab1, htab]
    rfl
  · unfold tableHas
    rw [hresp]
    simp only [htab1]
    rw [find_filter_not_key]
    rfl
  · rw [hresp]
    unfold promOf
    simp only [find_settleProm]
    unfold promOf at hprom1
    cases hf1 : (timerFire mid c).proms.find? (fun p => p.1 == mid) with
    | none => rw [hf1] at hprom1; simp at hprom1
    | some q =>
        rw [hf1] at hprom1
        simp only [Option.map_some'] at hprom1
        have hq2 : q.2 = PromSt.rejected (timeoutErr ttl) := by
          simpa using hprom1
        simp [hq2]

/-- C1 witness: a concrete pending call whose timer fires and whose late
response arrives afterwards. -/
theorem call_timeout_behavior_witness :
    promOf (timerFire (mkMid 5 1) (callOp 5 0 7 chanEmpty)) (mkMid 5 1)
      = some (PromSt.rejected (timeoutErr 7)) ∧
    tableHas (timerFire (mkMid 5 1) (callOp 5 0 7 chanEmpty)) (mkMid 5 1) = true ∧
    tableHas (respArrive (mkMid 5 1) (Except.ok "late")
        (timerFire (mkMid 5 1) (callOp 5 0 7 chanEmpty))) (mkMid 5 1) = false ∧
    promOf (respArrive (mkMid 5 1) (Except.ok "late")
        (timerFire (mkMid 5 1) (callOp 5 0 7 chanEmpty))) (mkMid 5 1)
      = some (PromSt.rejected (timeoutErr 7)) :=
  call_timeout_behavior (callOp 5 0 7 chanEmpty) (mkMid 5 1) 7 (Except.ok "late")
    (by decide) (by decide)

/-- C1 counterexample: on timer expiry the entry is NOT removed from the
pending table — after the timeout of the concrete call `5:1`, the claim
says a lookup of its id finds no entry, yet the lookup still finds it
(even though the promise has been rejected with the timeout error). -/
theorem c1_entry_still_present_after_timeout :
    tableHas (timerFire (mkMid 5 1) (callOp 5 0 7 chanEmpty)) (mkMid 5 1) = true ∧
    promOf (timerFire (mkMid 5 1) (callOp 5 0 7 chanEmpty)) (mkMid 5 1)
      = some (PromSt.rejected (timeoutErr 7)) := by
  constructor
  · decide
  · decide

/-! ## Call-id freshness -/

theorem callOp_chanInv (now mt et : Nat) (c : Chan) (h : chanInv c) :
    chanInv (callOp now mt et c) := by
  obtain ⟨hnd, hgen⟩ := h
  constructor
  · simp only [callOp, List.map_cons]
    refine List.nodup_cons.mpr ⟨?_, hnd⟩
    intro hmem
    obtain ⟨t, s, hs0, hsle, heq⟩ := hgen _ hmem
    obtain ⟨-, hseq⟩ := mkMid_inj _ _ _ _ heq
    omega
  · intro k hk
    simp only [callOp, List.map_cons, List.mem_cons] at hk
    rcases hk with rfl | hk
    · exact ⟨now, c.mids + 1, by omega, by simp [callOp], rfl⟩
    · obtain ⟨t, s, h0, hle, he⟩ := hgen k hk
      refine ⟨t, s, h0, ?_, he⟩
      simp only [callOp]
      omega

theorem runCalls_chanInv : ∀ (ts : List (Nat × Nat × Nat)) (c : Chan),
    chanInv c → chanInv (runCalls ts c) := by
  intro ts
  induction ts with
  | nil => intro c h; exact h
  | cons t ts ih =>
      intro c h
      simpa [runCalls] using ih _ (callOp_chanInv t.1 t.2.1 t.2.2 c h)

/-- C10: every `call` invocation's generated id embeds the strictly
increasing `mids` counter, so after any sequence of invocations the
pending-table keys are pairwise distinct, and the id of the next
invocation collides with no stored key — a new `callQueue.set` never
overwrites an existing entry. -/
theorem c10_call_ids_fresh : ∀ ts : List (Nat × Nat × Nat),
    ((runCalls ts chanEmpty).table.map Prod.fst).Nodup ∧
    ∀ t : Nat, mkMid t ((runCalls ts chanEmpty).mids + 1)
      ∉ (runCalls ts chanEmpty).table.map Prod.fst := by
  intro ts
  have hinv := runCalls_chanInv ts chanEmpty ⟨by simp [chanEmpty], by simp [chanEmpty]⟩
  refine ⟨hinv.1, ?_⟩
  intro t hmem
  obtain ⟨t2, s, hs0, hsle, heq⟩ := hinv.2 _ hmem
  obtain ⟨-, hseq⟩ := mkMid_inj _ _ _ _ heq
  omega

/-! ## Delivery-step lemmas -/

theorem deliver_effects (env : Env) (job : Job) (cr : Option CustomRoute)
    (cm : Option Mapping) (d : JobData) (url : String) :
    (deliver env job cr cm d url).effects =
      Effect.posted ((env.urlParse url).stripped)
          (deliverHeaders env job cr cm d url) (bodyOf env cm d)
        :: runFlagEffect env job cr url
        :: Effect.metricInc job.name (if deliveryFails env then "fail" else "success")
        :: obsEffects env := by
  unfold deliver runFlagEffect deliveryFails errMsgOf
  cases env.httpResult with
  | error m => simp
  | ok st => cases hst : httpOkStatus st <;> simp [hst]

theorem deliver_result (env : Env) (job : Job) (cr : Option CustomRoute)
    (cm : Option Mapping) (d : JobData) (url : String) :
    (deliver env job cr cm d url).result =
      if deliveryFails env then RunResult.err (errMsgOf env) (errStatusOf env)
      else RunResult.ok := by
  unfold deliver deliveryFails errMsgOf errStatusOf
  cases env.httpResult with
  | error m => simp
  | ok st => cases hst : httpOkStatus st <;> simp [hst]

theorem deliver_finalData (env : Env) (job : Job) (cr : Option CustomRoute)
    (cm : Option Mapping) (d : JobData) (url : String) :
    (deliver env job cr cm d url).finalData = finalDataOf cm d := by
  unfold deliver
  cases env.httpResult with
  | error m => simp
  | ok st => cases hst : httpOkStatus st <;> simp [hst]

theorem deliver_attempted (env : Env) (job : Job) (cr : Option CustomRoute)
    (cm : Option Mapping) (d : JobData) (url : String) :
    attempted (deliver env job cr cm d url) = true := by
  rw [attempted, deliver_effects]
  simp [isPostedE]

theorem deliver_postedOf (env : Env) (job : Job) (cr : Option CustomRoute)
    (cm : Option Mapping) (d : JobData) (url : String) :
    postedOf (deliver env job cr cm d url) =
      some ((env.urlParse url).stripped, deliverHeaders env job cr cm d url,
            bodyOf env cm d) := by
  rw [postedOf, deliver_effects]
  simp [List.findSome?_cons]

theorem isFlagE_runFlagEffect (env : Env) (job : Job) (cr : Option CustomRoute)
    (url : String) : isFlagE (runFlagEffect env job cr url) = true := by
  unfold runFlagEffect
  cases hf : deliveryFails env <;>
    cases hsc : scopeOf env cr job.data.account <;>
      simp [hsc, failFlagEffect, successFlagEffect, isFlagE]

theorem deliver_flagEffectOf (env : Env) (job : Job) (cr : Option CustomRoute)
    (cm : Option Mapping) (d : JobData) (url : String) :
    flagEffectOf (deliver env job cr cm d url) =
      some (runFlagEffect env job cr url) := by
  rw [flagEffectOf, deliver_effects]
  have h1 : isFlagE (Effect.posted ((env.urlParse url).stripped)
      (deliverHeaders env job cr cm d url) (bodyOf env cm d)) = false := rfl
  rw [List.find?_cons, h1, List.find?_cons, isFlagE_runFlagEffect]

theorem deliver_isErr (env : Env) (job : Job) (cr : Option CustomRoute)
    (cm : Option Mapping) (d : JobData) (url : String) :
    isErrResult (deliver env job cr cm d url) = deliveryFails env := by
  cases hf : deliveryFails env <;>
    simp [isErrResult, deliver_result, hf]

/-! ## Handler case analysis -/

theorem handle_cases (env : Env) (job : Job) :
    ((handle env job).effects = [] ∧ (handle env job).result = RunResult.ok) ∨
    (∃ cr cm d, routePhase env job.data = RouteStep.go cr cm d ∧
      handle env job = deliver env job cr cm d ((resolveUrl env cr).getD "")) := by
  unfold handle
  split
  · exact Or.inl ⟨rfl, rfl⟩
  split
  · exact Or.inl ⟨rfl, rfl⟩
  split
  · exact Or.inl ⟨rfl, rfl⟩
  next cr cm d heq =>
    split
    · exact Or.inl ⟨rfl, rfl⟩
    split
    · exact Or.inl ⟨rfl, rfl⟩
    · exact Or.inr ⟨cr, cm, d, heq, rfl⟩

theorem routePhase_go_frame : ∀ (env : Env) (d0 : JobData)
    (cr : Option CustomRoute) (cm : Option Mapping) (d : JobData),
    routePhase env d0 = RouteStep.go cr cm d →
    d = d0 ∨ d = { d0 with routeRef := none } := by
  intro env d0 cr cm d h
  unfold routePhase at h
  split at h
  · split at h
    · split at h
      · split at h
        · injection h with h1 h2 h3
          exact Or.inr h3.symm
        · simp at h
      · simp at h
    · injection h with h1 h2 h3
      exact Or.inl h3.symm
  · injection h with h1 h2 h3
    exact Or.inl h3.symm

theorem routePhase_drop_frame : ∀ (env : Env) (d0 : JobData) (d : JobData),
    routePhase env d0 = RouteStep.drop d →
    d = { d0 with routeRef := none } := by
  intro env d0 d h
  unfold routePhase at h
  split at h
  · split at h
    · split at h
      · split at h
        · simp at h
        · injection h with h1
          exact h1.symm
      · injection h with h1
        exact h1.symm
    · simp at h
  · simp at h

/-! ## C7: throw exactly on delivery failure -/

/-- C7: `handle` throws if and only if an HTTP request attempt was made
and the delivery failed (transport error or non-2xx response); when no
attempt was made (every drop condition), the run returns normally with no
effects at all — no POST, no error-flag write, no metric. -/
theorem c7_throw_iff_delivery_fails : ∀ (env : Env) (job : Job),
    (isErrResult (handle env job)
      = (attempted (handle env job) && deliveryFails env)) ∧
    (attempted (handle env job) = false →
      (handle env job).result = RunResult.ok ∧ (handle env job).effects = []) := by
  intro env job
  rcases handle_cases env job with ⟨he, hr⟩ | ⟨cr, cm, d, -, heq⟩
  · constructor
    · simp [isErrResult, hr, attempted, he]
    · intro _
      exact ⟨hr, he⟩
  · rw [heq]
    constructor
    · rw [deliver_isErr, deliver_attempted]
      simp
    · rw [deliver_attempted]
      intro h
      cases h
/-- C7 witness: a dropped job (webhooks disabled) returns normally with
no effects. -/
theorem c7_throw_iff_delivery_fails_witness :
    (handle { baseEnv with webhooksEnabled := false } baseJob).result
      = RunResult.ok ∧
    (handle { baseEnv with webhooksEnabled := false } baseJob).effects = [] :=
  (c7_throw_iff_delivery_fails { baseEnv with webhooksEnabled := false } baseJob).2
    (by decide)

/-! ## C2: the inbox-only filter -/

/-- C2 counterexample: the claim's own scenario — job-level event name
`messageNew`, `job.data = {account, path ≠ INBOX, messageId}` (and hence
no `event` field inside `job.data`), account existing, webhooks enabled,
allow-list `['*']`, `inboxNewOnly = true` — issues a POST: the handler's
new-message switch reads `job.data.event`, not the job-level name, so the
inbox-only filter never fires for this job and the claimed "zero POSTs"
is false. -/
theorem c2_counterexample : attempted (handle envC2 jobC2) = true := by decide

/-- C2 (amended): the inbox-only drop is keyed on the payload's `event`
field. For every non-routed job whose `job.data.event` is `messageNew`,
whose message carries no inbox marker, and with `inboxNewOnly` enabled,
the run returns normally with no effects — in particular zero POSTs. -/
theorem c2_inbox_only_drop : ∀ (env : Env) (job : Job),
    job.data.routeRef = none →
    job.data.event = some MESSAGE_NEW_NOTIFY →
    isInboxB job.data = false →
    env.inboxNewOnly = true →
    attempted (handle env job) = false ∧
    (handle env job).result = RunResult.ok ∧
    (handle env job).effects = [] := by
  intro env job hr hev hinb hset
  have hpf : passesFilters env job.name none job.data = false := by
    unfold passesFilters inboxFilterDrop
    simp [hev, hinb, hset]
  have hrp : routePhase env job.data = RouteStep.go none none job.data := by
    unfold routePhase
    rw [hr]
  unfold handle
  split
  · exact ⟨rfl, rfl, rfl⟩
  split
  · exact ⟨rfl, rfl, rfl⟩
  rw [hrp]
  simp [hpf, attempted]

/-- C2 witness: the same scenario with the payload's `event` field set to
`messageNew` is dropped without a POST. -/
theorem c2_inbox_only_drop_witness :
    attempted (handle envC2 jobC2ev) = false ∧
    (handle envC2 jobC2ev).result = RunResult.ok ∧
    (handle envC2 jobC2ev).effects = [] :=
  c2_inbox_only_drop envC2 jobC2ev (by decide) (by decide) (by decide) (by decide)

/-! ## C8: the handler's mutations of job.data -/

/-- C8 counterexample: the handler also clears `job.data.eventId` — after
a delivery of a non-routed job whose data carried `eventId`, the field is
gone from `job.data`, so "every field other than the route reference
(including eventId) has the same value" is false. -/
theorem c8_counterexample :
    (handle baseEnv jobEventId).finalData.eventId = none ∧
    jobEventId.data.eventId = some "evt-1" := by
  constructor
  · decide
  · decide

/-- C8 (amended): the handler leaves every field of `job.data` other than
the route reference and `eventId` unchanged. -/
theorem c8_frame : ∀ (env : Env) (job : Job),
    sameFrame ((handle env job).finalData) job.data := by
  intro env job
  have hframe1 : ∀ d : JobData, sameFrame d d := by
    intro d
    exact ⟨rfl, rfl, rfl, rfl, rfl, rfl, rfl⟩
  have hframe2 : ∀ d : JobData, sameFrame { d with routeRef := none } d := by
    intro d
    exact ⟨rfl, rfl, rfl, rfl, rfl, rfl, rfl⟩
  have hfinal : ∀ (cm : Option Mapping) (d : JobData),
      sameFrame (finalDataOf cm d) d := by
    intro cm d
    cases cm with
    | some m => exact hframe1 d
    | none =>
        unfold finalDataOf
        by_cases h : strTruthy d.eventId = true
        · rw [if_pos h]
          exact ⟨rfl, rfl, rfl, rfl, rfl, rfl, rfl⟩
        · rw [if_neg h]
          exact hframe1 d
  have htrans : ∀ a b c : JobData, sameFrame a b → sameFrame b c → sameFrame a c := by
    intro a b c h1 h2
    obtain ⟨x1, x2, x3, x4, x5, x6, x7⟩ := h1
    obtain ⟨y1, y2, y3, y4, y5, y6, y7⟩ := h2
    exact ⟨x1.trans y1, x2.trans y2, x3.trans y3, x4.trans y4,
           x5.trans y5, x6.trans y6, x7.trans y7⟩
  unfold handle
  split
  · exact hframe1 job.data
  split
  · exact hframe1 job.data
  split
  · next d heq =>
      rw [routePhase_drop_frame env job.data d heq]
      exact hframe2 job.data
  · next cr cm d heq =>
      have hd : sameFrame d job.data := by
        rcases routePhase_go_frame env job.data cr cm d heq with h | h
        · rw [h]; exact hframe1 job.data
        · rw [h]; exact hframe2 job.data
      split
      · exact hd
      split
      · exact hd
      · rw [deliver_finalData]
        exact htrans _ _ _ (hfinal cm d) hd

/-! ## C9: the duration observation metric -/

/-- C9: evaluation at the failing input — a successful request attempt
measured at zero milliseconds emits a POST but NO delivery-duration
observation metric (the `finally` block tests the duration for
truthiness, and `0` is falsy); the same attempt measured at a nonzero
duration emits exactly one observation. -/
theorem c9_zero_duration_no_metric :
    ((handle envDur0 baseJob).effects.any isObserveE = false ∧
      attempted (handle envDur0 baseJob) = true) ∧
    ((handle baseEnv baseJob).effects.filter isObserveE).length = 1 := by
  refine ⟨⟨?_, ?_⟩, ?_⟩ <;> decide

/-! ## Header-set lemmas -/

theorem findPred_cons_true {α : Type} (p : α → Bool) (a : α) (l : List α)
    (h : p a = true) : (a :: l).find? p = some a := by
  simp [List.find?_cons, h]

theorem findPred_cons_false {α : Type} (p : α → Bool) (a : α) (l : List α)
    (h : p a = false) : (a :: l).find? p = l.find? p := by
  simp [List.find?_cons, h]

theorem find_map_replace (hs : Headers) (k v : String)
    (h : hs.any (fun p => p.1 == k) = true) :
    (hs.map (fun p => if p.1 == k then (k, v) else p)).find? (fun p => p.1 == k)
      = some (k, v) := by
  induction hs with
  | nil => simp at h
  | cons q hs ih =>
      rw [List.map_cons]
      by_cases hq : q.1 = k
      · have hhead : (if (q.1 == k) = true then (k, v) else q) = (k, v) := by
          simp [hq]
        rw [hhead,
            findPred_cons_true (fun p => p.1 == k) (k, v) _ (by simp)]
      · have hqb : (q.1 == k) = false := by simp [hq]
        have hhead : (if (q.1 == k) = true then (k, v) else q) = q := by
          simp [hqb]
        rw [hhead, findPred_cons_false (fun p => p.1 == k) q _ hqb]
        exact ih (by simpa [List.any_cons, hqb] using h)

theorem find_append_new (hs : Headers) (k v : String)
    (h : hs.any (fun p => p.1 == k) = false) :
    (hs ++ [(k, v)]).find? (fun p => p.1 == k) = some (k, v) := by
  induction hs with
  | nil =>
      rw [List.nil_append,
          findPred_cons_true (fun p => p.1 == k) (k, v) [] (by simp)]
  | cons q hs ih =>
      have hqb : (q.1 == k) = false := by
        by_cases hq : q.1 = k
        · rw [List.any_cons] at h
          simp [hq] at h
        · simp [hq]
      rw [List.cons_append,
          findPred_cons_false (fun p => p.1 == k) q (hs ++ [(k, v)]) hqb]
      exact ih (by simpa [List.any_cons, hqb] using h)

theorem hdrLookup_setHeader_self (hs : Headers) (k v : String) :
    hdrLookup (setHeader hs k v) k = some v := by
  unfold hdrLookup setHeader
  by_cases ha : hs.any (fun p => p.1 == k) = true
  · rw [if_pos ha, find_map_replace hs k v ha]
    rfl
  · have ha2 : hs.any (fun p => p.1 == k) = false := Bool.eq_false_iff.mpr ha
    rw [if_neg ha, find_append_new hs k v ha2]
    rfl

theorem find_map_replace_other (hs : Headers) (k v k2 : String) (hne : k2 ≠ k) :
    (hs.map (fun p => if p.1 == k then (k, v) else p)).find? (fun p => p.1 == k2)
      = hs.find? (fun p => p.1 == k2) := by
  induction hs with
  | nil => rfl
  | cons q hs ih =>
      rw [List.map_cons]
      by_cases hq : q.1 = k
      · have hknot : (k == k2) = false := by
          simp only [beq_eq_false_iff_ne]
          exact fun hh => hne hh.symm
        have hq2 : (q.1 == k2) = false := by rw [hq]; exact hknot
        have hhead : (if (q.1 == k) = true then (k, v) else q) = (k, v) := by
          simp [hq]
        rw [hhead, findPred_cons_false (fun p => p.1 == k2) (k, v) _ hknot,
            findPred_cons_false (fun p => p.1 == k2) q hs hq2]
        exact ih
      · have hqb : (q.1 == k) = false := by simp [hq]
        have hhead : (if (q.1 == k) = true then (k, v) else q) = q := by
          simp [hqb]
        rw [hhead]
        by_cases hq2 : q.1 = k2
        · have hq2b : (q.1 == k2) = true := by simp [hq2]
          rw [findPred_cons_true (fun p => p.1 == k2) q _ hq2b,
              findPred_cons_true (fun p => p.1 == k2) q hs hq2b]
        · have hq2b : (q.1 == k2) = false := by simp [hq2]
          rw [findPred_cons_false (fun p => p.1 == k2) q _ hq2b,
              findPred_cons_false (fun p => p.1 == k2) q hs hq2b]
          exact ih

theorem find_append_other (hs : Headers) (k v k2 : String) (hne : k2 ≠ k) :
    (hs ++ [(k, v)]).find? (fun p => p.1 == k2) = hs.find? (fun p => p.1 == k2) := by
  induction hs with
  | nil =>
      have hknot : (k == k2) = false := by
        simp only [beq_eq_false_iff_ne]
        exact fun hh => hne hh.symm
      rw [List.nil_append, findPred_cons_false (fun p => p.1 == k2) (k, v) [] hknot]
  | cons q hs ih =>
      by_cases hq2 : q.1 = k2
      · have hq2b : (q.1 == k2) = true := by simp [hq2]
        rw [List.cons_append,
            findPred_cons_true (fun p => p.1 == k2) q (hs ++ [(k, v)]) hq2b,
            findPred_cons_true (fun p => p.1 == k2) q hs hq2b]
      · have hq2b : (q.1 == k2) = false := by simp [hq2]
        rw [List.cons_append,
            findPred_cons_false (fun p => p.1 == k2) q (hs ++ [(k, v)]) hq2b,
            findPred_cons_false (fun p => p.1 == k2) q hs hq2b]
        exact ih

theorem hdrLookup_setHeader_other (hs : Headers) (k v k2 : String) (hne : k2 ≠ k) :
    hdrLookup (setHeader hs k v) k2 = hdrLookup hs k2 := by
  unfold hdrLookup setHeader
  by_cases ha : hs.any (fun p => p.1 == k) = true
  · rw [if_pos ha, find_map_replace_other hs k v k2 hne]
  · have ha2 : hs.any (fun p => p.1 == k) = false := Bool.eq_false_iff.mpr ha
    rw [if_neg ha, find_append_other hs k v k2 hne]

theorem lastVal_cons (p : String × String) (layer : List (String × String)) (k : String) :
    lastVal (p :: layer) k =
      match lastVal layer k with
      | some v => some v
      | none => if p.1 == k then some p.2 else none := by
  unfold lastVal
  rw [List.reverse_cons, List.find?_append]
  cases hl : layer.reverse.find? (fun q => q.1 == k) with
  | some q => simp [hl]
  | none =>
      by_cases hp : p.1 = k
      · have hpb : (p.1 == k) = true := by simp [hp]
        simp [hl, findPred_cons_true (fun q => q.1 == k) p [] hpb, hpb]
      · have hpb : (p.1 == k) = false := by simp [hp]
        simp [hl, findPred_cons_false (fun q => q.1 == k) p [] hpb, hpb]

theorem hdrLookup_applyHeaders (layer : List (String × String)) (hs : Headers)
    (k : String) :
    hdrLookup (applyHeaders hs layer) k =
      match lastVal layer k with
      | some v => some v
      | none => hdrLookup hs k := by
  induction layer generalizing hs with
  | nil => simp [applyHeaders, lastVal]
  | cons p layer ih =>
      have hstep : applyHeaders hs (p :: layer) = applyHeaders (setHeader hs p.1 p.2) layer := by
        simp [applyHeaders]
      rw [hstep, ih, lastVal_cons]
      cases hl : lastVal layer k with
      | some v => simp
      | none =>
          by_cases hp : p.1 = k
          · have hpb : (p.1 == k) = true := by simp [hp]
            show hdrLookup (setHeader hs p.1 p.2) k
              = match (match (none : Option String) with
                       | some v => some v
                       | none => if p.1 == k then some p.2 else none) with
                | some v => some v
                | none => hdrLookup hs k
            rw [show (match (none : Option String) with
                      | some v => some v
                      | none => if p.1 == k then some p.2 else none)
                  = if p.1 == k then some p.2 else none from rfl]
            rw [if_pos hpb]
            show hdrLookup (setHeader hs p.1 p.2) k = some p.2
            rw [hp]
            exact hdrLookup_setHeader_self hs k p.2
          · have hpb : (p.1 == k) = false := by simp [hp]
            have hpk : k ≠ p.1 := fun hh => hp hh.symm
            show hdrLookup (setHeader hs p.1 p.2) k
              = match (match (none : Option String) with
                       | some v => some v
                       | none => if p.1 == k then some p.2 else none) with
                | some v => some v
                | none => hdrLookup hs k
            rw [show (match (none : Option String) with
                      | some v => some v
                      | none => if p.1 == k then some p.2 else none)
                  = if p.1 == k then some p.2 else none from rfl]
            rw [if_neg (by simp [hpb])]
            show hdrLookup (setHeader hs p.1 p.2) k = hdrLookup hs k
            exact hdrLookup_setHeader_other hs p.1 p.2 k hpk

/-! ## C3: header layering -/

/-- C3: header merging is three-layered with fixed precedence.  First
conjunct (general): for every delivered job, a key written by the
account custom-header layer (other than the two later-generated headers)
carries the account layer's last value in the transmitted header set —
account headers are merged last.  Second and third conjuncts (the claim's
concrete instance): with global headers `{A:1}`, route headers `{B:2}`
and account headers `{C:3}`, a routed job is posted with `B=2`, `C=3`,
and no `A` (the route layer replaces the global layer), while a
non-routed job is posted with `A=1`, `C=3`, and no `B`. -/
theorem c3_header_layering :
    (∀ (env : Env) (job : Job) (u : String) (hs : Headers) (b : Bytes)
        (hl : List (String × String)) (k : String),
      postedOf (handle env job) = some (u, hs, b) →
      env.acctCustomHeaders = some hl →
      k ≠ "X-EE-Wh-Event-Id" → k ≠ "X-EE-Wh-Signature" →
      lastVal hl k ≠ none →
      hdrLookup hs k = lastVal hl k) ∧
    (postedOf (handle envABC jobRouted)).map
        (fun p => (hdrLookup p.2.1 "A", hdrLookup p.2.1 "B", hdrLookup p.2.1 "C"))
      = some (none, some "2", some "3") ∧
    (postedOf (handle envABC baseJob)).map
        (fun p => (hdrLookup p.2.1 "A", hdrLookup p.2.1 "B", hdrLookup p.2.1 "C"))
      = some (some "1", none, some "3") := by
  refine ⟨?_, by decide, by decide⟩
  intro env job u hs b hl k hp hacct hk1 hk2 hlv
  rcases handle_cases env job with ⟨he, -⟩ | ⟨cr, cm, d, -, heq⟩
  · rw [postedOf, he] at hp
    cases hp
  · rw [heq, deliver_postedOf] at hp
    simp only [Option.some.injEq, Prod.mk.injEq] at hp
    obtain ⟨-, hhs, -⟩ := hp
    rw [← hhs]
    unfold deliverHeaders
    rw [hdrLookup_setHeader_other _ _ _ _ hk2]
    unfold preSigHeaders
    have hacctStep : ∀ hsx : Headers,
        hdrLookup (acctLayer env hsx) k = lastVal hl k := by
      intro hsx
      unfold acctLayer
      rw [hacct, hdrLookup_applyHeaders]
      cases hv : lastVal hl k with
      | some v => rfl
      | none => exact absurd hv hlv
    cases hev : eventIdOf cm d with
    | some e =>
        unfold evHeaders
        rw [hev, hdrLookup_setHeader_other _ _ _ _ hk1]
        exact hacctStep _
    | none =>
        unfold evHeaders
        rw [hev]
        exact hacctStep _

/-- C3 witness: the concrete account layer `{C:3}` wins at key `C` in a
delivered non-routed job. -/
theorem c3_header_layering_witness :
    hdrLookup ((postedOf (handle envABC baseJob)).iget.2.1) "C"
      = lastVal [("C", "3")] "C" :=
  c3_header_layering.1 envABC baseJob
    ((postedOf (handle envABC baseJob)).iget.1)
    ((postedOf (handle envABC baseJob)).iget.2.1)
    ((postedOf (handle envABC baseJob)).iget.2.2)
    [("C", "3")] "C" rfl rfl (by decide) (by decide) (by decide)

/-! ## C6: the signature header -/

/-- C6: the transmitted signature header equals the base64url encoding
(no padding) of HMAC-SHA256 over exactly the transmitted body bytes keyed
by the service secret — recomputing it over the posted body reproduces
the header — and distinct HMAC outputs (valid byte strings) always
produce distinct signature strings, so a body whose HMAC differs
invalidates the signature. -/
theorem c6_signature_correct :
    (∀ (env : Env) (job : Job) (u : String) (hs : Headers) (b : Bytes),
      postedOf (handle env job) = some (u, hs, b) →
      hdrLookup hs "X-EE-Wh-Signature"
        = some (b64urlNoPad (env.hmacFn env.serviceSecret b))) ∧
    (∀ h1 h2 : Bytes, (∀ x ∈ h1, x < 256) → (∀ x ∈ h2, x < 256) →
      h1 ≠ h2 → b64urlNoPad h1 ≠ b64urlNoPad h2) := by
  constructor
  · intro env job u hs b hp
    rcases handle_cases env job with ⟨he, -⟩ | ⟨cr, cm, d, -, heq⟩
    · rw [postedOf, he] at hp
      cases hp
    · rw [heq, deliver_postedOf] at hp
      simp only [Option.some.injEq, Prod.mk.injEq] at hp
      obtain ⟨-, hhs, hb⟩ := hp
      rw [← hhs, ← hb]
      unfold deliverHeaders
      rw [hdrLookup_setHeader_self]
      rfl
  · exact fun h1 h2 v1 v2 hne he => hne (b64urlNoPad_inj h1 h2 v1 v2 he)

/-- C6 witness: the concrete posted signature recomputes from the posted
body, and two distinct digests encode to distinct signatures. -/
theorem c6_signature_correct_witness :
    hdrLookup ((postedOf (handle baseEnv baseJob)).iget.2.1) "X-EE-Wh-Signature"
      = some (b64urlNoPad (baseEnv.hmacFn baseEnv.serviceSecret
          ((postedOf (handle baseEnv baseJob)).iget.2.2))) ∧
    b64urlNoPad [0] ≠ b64urlNoPad [1] :=
  ⟨c6_signature_correct.1 baseEnv baseJob
      ((postedOf (handle baseEnv baseJob)).iget.1)
      ((postedOf (handle baseEnv baseJob)).iget.2.1)
      ((postedOf (handle baseEnv baseJob)).iget.2.2) rfl,
   c6_signature_correct.2 [0] [1] (by decide) (by decide) (by decide)⟩

/-! ## C5: custom routes bypass the event filters -/

/-- C5: for a job with an attached route that is found, enabled and has a
target URL (and which passes the earlier account/enabled checks), the
run's outcome is identical for every value of the `webhookEvents`
allow-list and of `inboxNewOnly`, and the job proceeds to delivery (a
POST is issued) whatever the job's event name. -/
theorem c5_route_bypasses_filters : ∀ (env : Env) (job : Job) (r : RouteRef)
    (cr : CustomRoute) (evs1 evs2 : Option (List String)) (b1 b2 : Bool),
    job.data.routeRef = some r →
    strTruthy r.id = true →
    env.routeMeta (r.id.getD "") = some cr →
    cr.enabled = true →
    strTruthy cr.targetUrl = true →
    env.accountExists = true →
    env.webhooksEnabled = true →
    handle { env with webhookEvents := evs1, inboxNewOnly := b1 } job
      = handle { env with webhookEvents := evs2, inboxNewOnly := b2 } job
    ∧ attempted (handle env job) = true := by
  intro env job r cr evs1 evs2 b1 b2 hr hid hmeta hen hturl hacct hweb
  have hrp : ∀ (evs : Option (List String)) (b : Bool),
      routePhase { env with webhookEvents := evs, inboxNewOnly := b } job.data
        = RouteStep.go (some cr) r.mapping { job.data with routeRef := none } := by
    intro evs b
    unfold routePhase
    rw [hr]
    simp [hid, hmeta, hen, hturl]
  have hrp0 : routePhase env job.data
      = RouteStep.go (some cr) r.mapping { job.data with routeRef := none } := by
    unfold routePhase
    rw [hr]
    simp [hid, hmeta, hen, hturl]
  constructor
  · unfold handle
    rw [hrp evs1 b1, hrp evs2 b2]
    simp only [hacct, hweb, resolveUrl, routeUrl, jsOrStr, hturl, passesFilters,
               Bool.not_true, Bool.false_and, Bool.and_false, if_true, if_false,
               Bool.not_false, ite_true, ite_false, Bool.false_eq_true]
    rfl
  · unfold handle
    rw [hrp0]
    simp [hacct, hweb, resolveUrl, routeUrl, jsOrStr, hturl, passesFilters,
          deliver_attempted]

/-- C5 witness: a routed job delivers identically under an empty
allow-list with `inboxNewOnly` on and under `['*']` with it off. -/
theorem c5_route_bypasses_filters_witness :
    handle { envABC with webhookEvents := some [], inboxNewOnly := true } jobRouted
      = handle { envABC with webhookEvents := some ["*"], inboxNewOnly := false } jobRouted
    ∧ attempted (handle envABC jobRouted) = true :=
  c5_route_bypasses_filters envABC jobRouted
    { id := some "r1", mapping := none } routeB
    (some []) (some ["*"]) true false
    rfl (by decide) (by decide) (by decide) (by decide) (by decide) (by decide)

/-! ## C4: error-flag round trip -/

theorem scopeTouched_fail (sc : Scope) (f : ErrorFlag) :
    scopeTouched (failFlagEffect sc f) = some (sc, FlagVal.flag f) := by
  cases sc <;> rfl

theorem scopeTouched_success (sc : Scope) :
    scopeTouched (successFlagEffect sc) = some (sc, FlagVal.empty) := by
  cases sc <;> rfl

theorem replayFlags_handle (env : Env) (job : Job) (st : Scope → Option FlagVal) :
    replayFlags st (handle env job).effects =
      match flagEffectOf (handle env job) with
      | some e => applyFlagEffect st e
      | none => st := by
  rcases handle_cases env job with ⟨he, -⟩ | ⟨cr, cm, d, -, heq⟩
  · rw [he, flagEffectOf, he]
    rfl
  · rw [heq, deliver_flagEffectOf, deliver_effects]
    have h3 : ∀ st2 : Scope → Option FlagVal,
        List.foldl applyFlagEffect st2 (obsEffects env) = st2 := by
      intro st2
      unfold obsEffects
      split <;> rfl
    show List.foldl applyFlagEffect st _ = _
    rw [List.foldl_cons, List.foldl_cons, List.foldl_cons]
    rw [show applyFlagEffect st (Effect.posted ((env.urlParse ((resolveUrl env cr).getD "")).stripped)
          (deliverHeaders env job cr cm d ((resolveUrl env cr).getD ""))
          (bodyOf env cm d)) = st from rfl]
    rw [show ∀ st2 : Scope → Option FlagVal, applyFlagEffect st2
          (Effect.metricInc job.name (if deliveryFails env then "fail" else "success")) = st2
        from fun _ => rfl]
    rw [h3]

/-- C4: error-flag round trip per scope.  A failing delivery resolved to
scope `sc` followed by a successful delivery at the same scope leaves the
scope's stored error flag equal to the empty object; two consecutive
failures leave exactly the second failure's record — the flag is
overwritten on every failure and cleared on the next success, with no
history kept. -/
theorem c4_error_flag_roundtrip : ∀ (env1 env2 : Env) (job1 job2 : Job)
    (sc : Scope) (f1 : ErrorFlag) (st0 : Scope → Option FlagVal),
    flagEffectOf (handle env1 job1) = some (failFlagEffect sc f1) →
    flagEffectOf (handle env2 job2) = some (successFlagEffect sc) →
    replayFlags st0 ((handle env1 job1).effects ++ (handle env2 job2).effects) sc
      = some FlagVal.empty
    ∧ ∀ (env3 : Env) (job3 : Job) (f3 : ErrorFlag),
        flagEffectOf (handle env3 job3) = some (failFlagEffect sc f3) →
        replayFlags st0 ((handle env1 job1).effects ++ (handle env3 job3).effects) sc
          = some (FlagVal.flag f3) := by
  intro env1 env2 job1 job2 sc f1 st0 h1 h2
  have happ : ∀ (es1 es2 : List Effect) (st : Scope → Option FlagVal),
      replayFlags st (es1 ++ es2) = replayFlags (replayFlags st es1) es2 := by
    intro es1 es2 st
    simp [replayFlags, List.foldl_append]
  constructor
  · rw [happ, replayFlags_handle, replayFlags_handle, h1, h2]
    show applyFlagEffect (applyFlagEffect st0 (failFlagEffect sc f1))
        (successFlagEffect sc) sc = some FlagVal.empty
    unfold applyFlagEffect
    rw [scopeTouched_success]
    simp
  · intro env3 job3 f3 h3
    rw [happ, replayFlags_handle, replayFlags_handle, h1, h3]
    show applyFlagEffect (applyFlagEffect st0 (failFlagEffect sc f1))
        (failFlagEffect sc f3) sc = some (FlagVal.flag f3)
    unfold applyFlagEffect
    rw [scopeTouched_fail]
    simp

/-- C4 witness: at the concrete account scope, a transport failure
followed by a success replays to the empty flag, and a transport failure
followed by a non-2xx failure replays to exactly the second failure's
record. -/
theorem c4_error_flag_roundtrip_witness :
    replayFlags (fun _ => none)
        ((handle envFail baseJob).effects ++ (handle baseEnv baseJob).effects)
        (Scope.account (some "acc1"))
      = some FlagVal.empty ∧
    replayFlags (fun _ => none)
        ((handle envFail baseJob).effects ++ (handle envFail2 baseJob).effects)
        (Scope.account (some "acc1"))
      = some (FlagVal.flag
          { event := "messageNew"
            message := "Invalid response: 500 Server Error"
            time := 9
            url := "https://example.com/hook" }) := by
  have h := c4_error_flag_roundtrip envFail baseEnv baseJob baseJob
    (Scope.account (some "acc1"))
    { event := "messageNew"
      message := "connect ECONNREFUSED"
      time := 7
      url := "https://example.com/hook" }
    (fun _ => none) (by decide) (by decide)
  exact ⟨h.1, h.2 envFail2 baseJob
    { event := "messageNew"
      message := "Invalid response: 500 Server Error"
      time := 9
      url := "https://example.com/hook" } (by decide)⟩

/-- C8 witness: the frame property at a concrete delivered job. -/
theorem c8_frame_witness :
    sameFrame ((handle baseEnv baseJob).finalData) baseJob.data :=
  c8_frame baseEnv baseJob

/-- C10 witness: freshness at a concrete two-call sequence. -/
theorem c10_call_ids_fresh_witness :
    ((runCalls [(5, 0, 7), (6, 0, 7)] chanEmpty).table.map Prod.fst).Nodup ∧
    mkMid 9 ((runCalls [(5, 0, 7), (6, 0, 7)] chanEmpty).mids + 1)
      ∉ (runCalls [(5, 0, 7), (6, 0, 7)] chanEmpty).table.map Prod.fst :=
  ⟨(c10_call_ids_fresh [(5, 0, 7), (6, 0, 7)]).1,
   (c10_call_ids_fresh [(5, 0, 7), (6, 0, 7)]).2 9⟩
